import Mathlib

/-
Shallow embedding of the pullbox synchronization daemon
(src/pullbox/__init__.py) and proofs about its core operations:
the process invoker, the filesystem-event filter, the pull and push
engines, and the resilient loop supervisor.

Conventions of the embedding:
- exit statuses of spawned subprocesses are inputs (Int, as returned by
  Python subprocess.call, which reports signal kills as negative values);
- wall-clock readings of time.time() are inputs (Rat); each call site of
  time.time() in the source gets its own parameter, in source order;
- raising an exception is modelled by an Outcome value that aborts the
  rest of the operation; try/finally blocks are modelled by performing the
  finally action on every branch, as the source does;
- the process working directory (os.chdir) is a field of the state.
-/

namespace Pullbox

/-- Outcome of `invoke_process`: normal return, `KeyboardInterrupt`
(raised when the exit status is 130), or `PullboxCalledProcessError`
carrying the command line and the exit status. -/
inductive InvokeResult where
  | ok : InvokeResult
  | interrupted : InvokeResult
  | failed (cmd : String) (retcode : Int) : InvokeResult
deriving DecidableEq, Repr

/-- Value passed for the `ignore_code` argument of `invoke_process`:
the Python code accepts a single integer or a list of integers. -/
inductive IgnoreCode where
  | one (c : Int) : IgnoreCode
  | many (cs : List Int) : IgnoreCode
deriving DecidableEq, Repr

/-- Normalization performed by `invoke_process`: a non-list argument is
wrapped into a one-element list. -/
def IgnoreCode.toList : IgnoreCode → List Int
  | .one c => [c]
  | .many cs => cs

/-- Embedding of `Pullbox.invoke_process` (lines 102-115) as a pure function
of the exit status `r` of the spawned command. The source first raises
`KeyboardInterrupt` when `r == 130`, then raises
`PullboxCalledProcessError` when `r != 0` and `r` is not in the (normalized)
ignore list, and otherwise returns normally. -/
def invoke_process (cmd : String) (ignore_code : IgnoreCode) (r : Int) : InvokeResult :=
  if r = 130 then .interrupted
  else if r ≠ 0 ∧ r ∉ ignore_code.toList then .failed cmd r
  else .ok

/-- Filesystem event as seen by `LocalFSEventHandler.on_any_event`:
the watchdog event carries an event type string, a source path and a
directory flag. Paths use the POSIX separator. -/
structure FSEvent where
  event_type : String
  src_path : String
  is_directory : Bool
deriving DecidableEq, Repr

/-- Embedding of `os.path.basename` on POSIX paths: the part of the path
after the last separator. -/
def os_basename (p : String) : String :=
  (p.splitOn "/").getLastD ""

/-- Embedding of `LocalFSEventHandler.on_any_event` (lines 65-71): returns
`true` exactly when the handler calls `self.on_change()` (which sets the
dirty flag). The event is dropped when some path segment equals `.git`,
or the basename starts with a dot, or it is a `modified` event on a
directory. -/
def on_any_event_fires (evt : FSEvent) : Bool :=
  let is_git_dir := (evt.src_path.splitOn "/").contains ".git"
  let is_dot_file := (os_basename evt.src_path).startsWith "."
  let is_dir_modified := evt.event_type == "modified" && evt.is_directory
  !(is_git_dir || is_dot_file || is_dir_modified)

/-- The watcher filtering policy as the specification words it (sections 4.3
and 8): an event is ignored iff some path segment equals the metadata
directory name `.git`, or the final path segment starts with a dot, or the
event is a `modified` event on a directory. -/
def spec_event_ignored (evt : FSEvent) : Prop :=
  ".git" ∈ evt.src_path.splitOn "/"
    ∨ (os_basename evt.src_path).startsWith "." = true
    ∨ (evt.event_type = "modified" ∧ evt.is_directory = true)

instance (evt : FSEvent) : Decidable (spec_event_ignored evt) := by
  unfold spec_event_ignored; infer_instance

/-- Embedding of Python `str.rstrip(os.path.sep)` on POSIX paths: drops
every trailing separator. -/
def rstrip_sep (p : String) : String :=
  String.mk ((p.toList.reverse.dropWhile (fun c => c == '/')).reverse)

/-- Embedding of `os.path.dirname` on POSIX paths: the part of the path up
to the last separator, with trailing separators stripped unless the result
is all separators. -/
def os_dirname (p : String) : String :=
  let head := (p.toList.reverse.dropWhile (fun c => c != '/')).reverse
  if head.isEmpty || head.all (fun c => c == '/') then String.mk head
  else String.mk ((head.reverse.dropWhile (fun c => c == '/')).reverse)

/-- Immutable configuration of a `Pullbox` instance: the remote server and
the absolute local path (`self.server`, `self.path`). -/
structure Config where
  server : String
  path : String
deriving DecidableEq, Repr

/-- Embedding of `self.dirname = os.path.basename(path.rstrip(os.path.sep))`
(line 86). -/
def Config.dirname (cfg : Config) : String := os_basename (rstrip_sep cfg.path)

/-- Embedding of `bpath = os.path.dirname(self.path.rstrip(os.path.sep))`
(line 170). -/
def Config.bpath (cfg : Config) : String := os_dirname (rstrip_sep cfg.path)

/-- Mutable state of the daemon as seen by the pull and push engines:
the process working directory (mutated by `os.chdir`), the shared
`next_pull_at` deadline, the shared `fs_changed` dirty flag, and the
ambient filesystem facts `os.path.exists(self.path)` and
`os.path.exists(bpath)`. -/
structure PBState where
  cwd : String
  next_pull_at : ℚ
  fs_changed : Bool
  path_exists : Bool
  parent_exists : Bool
deriving DecidableEq, Repr

/-- Outcome of running one engine operation: normal return, a propagating
`KeyboardInterrupt`, or a propagating `PullboxCalledProcessError`. -/
inductive Outcome where
  | ok : Outcome
  | interrupted : Outcome
  | error (cmd : String) (retcode : Int) : Outcome
deriving DecidableEq, Repr

def InvokeResult.toOutcome : InvokeResult → Outcome
  | .ok => .ok
  | .interrupted => .interrupted
  | .failed c r => .error c r

/-- Result of one engine operation: the state on exit (after every
`finally` block has run), the external command lines spawned, in order,
and the outcome. -/
structure RunResult where
  st : PBState
  cmds : List String
  outcome : Outcome
deriving DecidableEq, Repr

/-- Command line `git clone %s:%s % (self.server, self.dirname)` (line 178). -/
def git_clone_cmd (cfg : Config) : String :=
  "git clone " ++ cfg.server ++ ":" ++ cfg.dirname

/-- Command line `git commit -a -m "%s"` with the auto commit message built
from the UTC timestamp `dt` (lines 211-213). -/
def git_commit_cmd (dt : String) : String :=
  "git commit -a -m \"auto commit at " ++ dt ++ "\""

/-- Runs a straight-line sequence of invocations, stopping at the first one
that raises; returns the command lines actually spawned and the outcome. -/
def runCmds : List (String × IgnoreCode × Int) → List String × Outcome
  | [] => ([], .ok)
  | (cmd, ic, r) :: rest =>
    match (invoke_process cmd ic r).toOutcome with
    | .ok => let t := runCmds rest; (cmd :: t.1, t.2)
    | o => ([cmd], o)

/-- Embedding of `os.chdir(d)`: the process working directory becomes `d`. -/
def chdir (st : PBState) (d : String) : PBState := { st with cwd := d }

/-- Embedding of lines 170-173 of `init_local_repo`: `os.makedirs(bpath)`
runs when the parent directory is absent, after which it exists. -/
def makedirs_parent (st : PBState) : PBState :=
  if st.parent_exists then st else { st with parent_exists := true }

/-- Exit statuses for the five commands spawned by `init_local_repo`. -/
structure InitCodes where
  clone : Int
  touch : Int
  add : Int
  commit : Int
  push : Int
deriving DecidableEq, Repr

/-- The four placeholder-seeding commands of `init_local_repo`
(lines 181-184), paired with their ignore codes (the default 0) and their
exit statuses. -/
def initTailCmds (rc : InitCodes) : List (String × IgnoreCode × Int) :=
  [("touch README.md", .one 0, rc.touch),
   ("git add README.md", .one 0, rc.add),
   ("git commit -a -m \"initial\"", .one 0, rc.commit),
   ("git push origin master", .one 0, rc.push)]

/-- Embedding of `Pullbox.init_local_repo` (lines 169-186): create the
parent directories when absent (`os.makedirs`), save the working
directory, `os.chdir(bpath)`, clone the remote repository (a successful
clone makes the local directory exist), `os.chdir(self.path)`, then
touch/add/commit/push the README placeholder, stopping at the first
command that raises; the `finally` restores the saved working directory
on every exit path. -/
def init_local_repo (cfg : Config) (st : PBState) (rc : InitCodes) : RunResult :=
  match (invoke_process (git_clone_cmd cfg) (.one 0) rc.clone).toOutcome with
  | .ok =>
    ⟨chdir { chdir (chdir (makedirs_parent st) cfg.bpath) cfg.path with path_exists := true }
       (makedirs_parent st).cwd,
     git_clone_cmd cfg :: (runCmds (initTailCmds rc)).1,
     (runCmds (initTailCmds rc)).2⟩
  | o =>
    ⟨chdir (chdir (makedirs_parent st) cfg.bpath) (makedirs_parent st).cwd,
     [git_clone_cmd cfg], o⟩

/-- `Pullbox.POLL_INTERVAL` (line 79), in seconds. -/
def POLL_INTERVAL : ℚ := 60

/-- Embedding of lines 194-201 of `Pullbox.pull_changes`, run when the
deadline guard has passed: `r1` is the result of the preceding bootstrap
step (a no-op result when the local directory existed). When the
bootstrap raised, its exception propagates and nothing more runs. The
engine saves the working directory, changes into the local directory
(`os.chdir(self.path)`), spawns `git pull`, and the `finally` restores
the saved working directory; the deadline is updated to
`now2 + POLL_INTERVAL` only when no exception was raised. -/
def pull_changes_after_guard (cfg : Config) (r1 : RunResult) (now2 : ℚ)
    (rpull : Int) : RunResult :=
  if r1.outcome = .ok then
    match (invoke_process "git pull" (.one 0) rpull).toOutcome with
    | .ok => ⟨{ chdir (chdir r1.st cfg.path) r1.st.cwd with
                next_pull_at := now2 + POLL_INTERVAL },
              r1.cmds ++ ["git pull"], .ok⟩
    | o => ⟨chdir (chdir r1.st cfg.path) r1.st.cwd,
            r1.cmds ++ ["git pull"], o⟩
  else r1

/-- Embedding of `Pullbox.pull_changes` (lines 188-201). `now1` is the
`time.time()` reading in the deadline guard (line 189) and `now2` the
reading used to set the new deadline (line 201); `rpull` is the exit
status of `git pull`. When the deadline guard holds the call returns at
once; otherwise, when the local directory is absent, the bootstrap
`init_local_repo` runs first, and then the pull step
`pull_changes_after_guard` runs. -/
def pull_changes (cfg : Config) (st : PBState) (now1 now2 : ℚ)
    (rc : InitCodes) (rpull : Int) : RunResult :=
  if st.next_pull_at > now1 then ⟨st, [], .ok⟩
  else
    pull_changes_after_guard cfg
      (if st.path_exists then (⟨st, [], .ok⟩ : RunResult)
       else init_local_repo cfg st rc) now2 rpull

/-- Exit statuses for the three commands spawned by `push_changes`. -/
structure PushCodes where
  add : Int
  commit : Int
  push : Int
deriving DecidableEq, Repr

/-- Embedding of `Pullbox.push_changes` (lines 203-219). `dt` is the UTC
timestamp used in the commit message. When the dirty flag is clear the
call returns at once. Otherwise it changes into the local directory and
spawns `git add .`, the commit (ignore code 1) and the push (ignore code
-2); the `finally` restores the saved working directory on every path and
the dirty flag is cleared only when no exception was raised. -/
def push_changes (cfg : Config) (st : PBState) (dt : String) (rc : PushCodes) : RunResult :=
  if !st.fs_changed then ⟨st, [], .ok⟩
  else
    match (invoke_process "git add ." (.one 0) rc.add).toOutcome with
    | .ok =>
      match (invoke_process (git_commit_cmd dt) (.one 1) rc.commit).toOutcome with
      | .ok =>
        match (invoke_process "git push origin master" (.one (-2)) rc.push).toOutcome with
        | .ok => ⟨{ chdir (chdir st cfg.path) st.cwd with fs_changed := false },
                  ["git add .", git_commit_cmd dt, "git push origin master"], .ok⟩
        | o => ⟨chdir (chdir st cfg.path) st.cwd,
                ["git add .", git_commit_cmd dt, "git push origin master"], o⟩
      | o => ⟨chdir (chdir st cfg.path) st.cwd, ["git add .", git_commit_cmd dt], o⟩
    | o => ⟨chdir (chdir st cfg.path) st.cwd, ["git add ."], o⟩

/-- Initialization performed by `Pullbox.__init__` (lines 81-97) on the
mutable state: `self.fs_changed = True` (line 93) and `self.next_pull_at
= 0` (line 97). The working directory and the filesystem facts are
ambient inputs. -/
def initState (cwd : String) (path_exists parent_exists : Bool) : PBState :=
  { cwd := cwd, next_pull_at := 0, fs_changed := true,
    path_exists := path_exists, parent_exists := parent_exists }

/-- What one call of the supervised function `fn` does inside
`keeprunning`: return normally, raise `SystemExit`/`KeyboardInterrupt`,
or raise any other exception. -/
inductive FnOutcome where
  | ok : FnOutcome
  | intr : FnOutcome
  | err : FnOutcome
deriving DecidableEq, Repr

/-- Observable actions of the loop supervisor: logging an exception and
sleeping for a duration. -/
inductive SupEvent where
  | logged : SupEvent
  | slept (d : ℚ) : SupEvent
deriving DecidableEq, Repr

/-- Trace of a bounded run of `keeprunning`: the observable actions in
order, and whether the loop terminated by re-raising an interruption. -/
structure SupResult where
  events : List SupEvent
  propagated : Bool
deriving DecidableEq, Repr

/-- Embedding of `Pullbox.keeprunning` (lines 145-161), run for as many
iterations as the list `outs` of per-call outcomes provides (the source
loop is infinite; an exhausted list means the loop is still running).
`SystemExit`/`KeyboardInterrupt` re-raise immediately; any other
exception is logged and followed by `time.sleep(error_wait)`; a normal
return is followed by `time.sleep(wait)`. -/
def keeprunning (outs : List FnOutcome) (wait error_wait : ℚ) : SupResult :=
  match outs with
  | [] => ⟨[], false⟩
  | .intr :: _ => ⟨[], true⟩
  | .err :: rest =>
      let r := keeprunning rest wait error_wait
      ⟨.logged :: .slept error_wait :: r.events, r.propagated⟩
  | .ok :: rest =>
      let r := keeprunning rest wait error_wait
      ⟨.slept wait :: r.events, r.propagated⟩

end Pullbox

namespace Pullbox

/-- C5: For every invocation of the process invoker in which the spawned
command exits with code 130, a `KeyboardInterrupt` is raised, even when 130
is included in the configured ignorable exit codes. -/
theorem invoke_process_130_interrupts (cmd : String) (ignore_code : IgnoreCode) :
    invoke_process cmd ignore_code 130 = .interrupted := by
  simp [invoke_process]

/-- C3: a filesystem event sets the dirty flag iff it is not ignored by the
specification policy: it is dropped exactly when some path segment equals
`.git`, or the basename starts with a dot, or it is a directory-modify
event; every other event fires the dirty-flag callback. -/
theorem on_any_event_fires_iff (evt : FSEvent) :
    on_any_event_fires evt = true ↔ ¬ spec_event_ignored evt := by
  unfold on_any_event_fires spec_event_ignored
  simp
  tauto

/-- C8: a call to `push_changes` made while the dirty flag is false returns
immediately: the state is unchanged, zero commands are spawned and no
error is raised. -/
theorem push_changes_noop_when_clean (cfg : Config) (st : PBState) (dt : String)
    (rc : PushCodes) (h : st.fs_changed = false) :
    push_changes cfg st dt rc = ⟨st, [], .ok⟩ := by
  simp [push_changes, h]

/-- Witness for C8 at a concrete clean state. -/
theorem push_changes_noop_when_clean_witness :
    (⟨"/home", 0, false, true, true⟩ : PBState).fs_changed = false ∧
    push_changes ⟨"srv", "/d/box"⟩ ⟨"/home", 0, false, true, true⟩ "20240101T000000" ⟨5, 6, 7⟩
      = ⟨⟨"/home", 0, false, true, true⟩, [], .ok⟩ :=
  ⟨rfl, push_changes_noop_when_clean _ _ _ _ rfl⟩

/-- C10: `Pullbox.__init__` initializes the dirty flag to `True`, so the
first push cycle after startup, with all commands succeeding, performs the
full stage/commit/push sequence even though no filesystem event has
occurred. -/
theorem initState_dirty_first_push (cwd : String) (pe qe : Bool) (cfg : Config) (dt : String) :
    (initState cwd pe qe).fs_changed = true ∧
    (push_changes cfg (initState cwd pe qe) dt ⟨0, 0, 0⟩).cmds
      = ["git add .", git_commit_cmd dt, "git push origin master"] ∧
    (push_changes cfg (initState cwd pe qe) dt ⟨0, 0, 0⟩).outcome = .ok := by
  refine ⟨rfl, ?_, ?_⟩ <;>
    simp [push_changes, initState, invoke_process, IgnoreCode.toList, InvokeResult.toOutcome]

/-- C6: with the dirty flag set, a push cycle whose commit exits with the
nothing-to-commit status 1 while add and push succeed raises no error and
clears the dirty flag. -/
theorem push_changes_nothing_to_commit (cfg : Config) (st : PBState) (dt : String)
    (h : st.fs_changed = true) :
    (push_changes cfg st dt ⟨0, 1, 0⟩).outcome = .ok ∧
    (push_changes cfg st dt ⟨0, 1, 0⟩).st.fs_changed = false := by
  constructor <;>
    simp [push_changes, h, invoke_process, IgnoreCode.toList, InvokeResult.toOutcome]

/-- Witness for C6 at a concrete dirty state. -/
theorem push_changes_nothing_to_commit_witness :
    (⟨"/home", 0, true, true, true⟩ : PBState).fs_changed = true ∧
    ((push_changes ⟨"srv", "/d/box"⟩ ⟨"/home", 0, true, true, true⟩ "20240101T000000"
        ⟨0, 1, 0⟩).outcome = .ok ∧
      (push_changes ⟨"srv", "/d/box"⟩ ⟨"/home", 0, true, true, true⟩ "20240101T000000"
        ⟨0, 1, 0⟩).st.fs_changed = false) :=
  ⟨rfl, push_changes_nothing_to_commit _ _ _ rfl⟩

/-- C1 counterexample: with the dirty flag set and add and commit
succeeding, a push that exits with status 1 — the status git produces when
a push is rejected because the remote advanced concurrently — raises
`PullboxCalledProcessError` instead of being treated as ignorable. -/
theorem push_rejected_raises_cex :
    (push_changes ⟨"srv", "/d/box"⟩ ⟨"/home", 0, true, true, true⟩ "20240101T000000"
      ⟨0, 0, 1⟩).outcome = .error "git push origin master" 1 := rfl

/-- C1 amended: the push step of `push_changes` treats as ignorable only
exit status -2 (the value `subprocess.call` reports when the spawned push
is killed by SIGINT), not the rejected-push status: with the dirty flag
set and add and commit succeeding, a push exiting -2 raises no error while
a push exiting 1 raises `PullboxCalledProcessError` carrying the push
command line. -/
theorem push_ignores_only_minus_two (cfg : Config) (st : PBState) (dt : String)
    (h : st.fs_changed = true) :
    (push_changes cfg st dt ⟨0, 0, -2⟩).outcome = .ok ∧
    (push_changes cfg st dt ⟨0, 0, 1⟩).outcome = .error "git push origin master" 1 := by
  constructor <;>
    simp [push_changes, h, invoke_process, IgnoreCode.toList, InvokeResult.toOutcome]

/-- Witness for the amended C1 at a concrete dirty state. -/
theorem push_ignores_only_minus_two_witness :
    (⟨"/home", 0, true, true, true⟩ : PBState).fs_changed = true ∧
    ((push_changes ⟨"srv", "/d/box"⟩ ⟨"/home", 0, true, true, true⟩ "20240101T000000"
        ⟨0, 0, -2⟩).outcome = .ok ∧
      (push_changes ⟨"srv", "/d/box"⟩ ⟨"/home", 0, true, true, true⟩ "20240101T000000"
        ⟨0, 0, 1⟩).outcome = .error "git push origin master" 1) :=
  ⟨rfl, push_ignores_only_minus_two _ _ _ rfl⟩

/-- The clone command line can never coincide with `git pull`, whatever the
server and directory names are: it is strictly longer. -/
theorem git_clone_cmd_ne_pull (cfg : Config) : git_clone_cmd cfg ≠ "git pull" := by
  intro h
  have hlen := congrArg String.length h
  have h1 : ("git clone " : String).length = 10 := rfl
  have h2 : (":" : String).length = 1 := rfl
  have h3 : ("git pull" : String).length = 8 := rfl
  simp only [git_clone_cmd, String.length_append, h1, h2, h3] at hlen
  omega

/-- The commands actually spawned by a straight-line sequence form a
sublist of the commands given. -/
theorem runCmds_sublist (l : List (String × IgnoreCode × Int)) :
    (runCmds l).1.Sublist (l.map fun x => x.1) := by
  induction l with
  | nil => simp [runCmds]
  | cons x rest ih =>
    obtain ⟨cmd, ic, r⟩ := x
    simp only [List.map_cons]
    unfold runCmds
    split
    · exact List.Sublist.cons₂ _ ih
    · exact List.Sublist.cons₂ _ (List.nil_sublist _)

/-- The bootstrap never spawns `git pull`. -/
theorem git_pull_not_in_init (cfg : Config) (st : PBState) (rc : InitCodes) :
    "git pull" ∉ (init_local_repo cfg st rc).cmds := by
  unfold init_local_repo
  split <;> intro hmem <;>
    simp only [List.mem_cons, List.mem_singleton, List.not_mem_nil, or_false] at hmem
  · rcases hmem with h | h
    · exact git_clone_cmd_ne_pull cfg h.symm
    · have hsub := (runCmds_sublist (initTailCmds rc)).subset h
      simp [initTailCmds] at hsub
  · exact git_clone_cmd_ne_pull cfg hmem.symm

/-- The pull step spawns `git pull` at most once beyond the bootstrap
commands it is given. -/
theorem pull_after_guard_count (cfg : Config) (r1 : RunResult) (now2 : ℚ) (rpull : Int)
    (h : "git pull" ∉ r1.cmds) :
    ((pull_changes_after_guard cfg r1 now2 rpull).cmds).count "git pull" ≤ 1 := by
  unfold pull_changes_after_guard
  split
  · split <;> simp [List.count_append, List.count_eq_zero.mpr h]
  · simp [List.count_eq_zero.mpr h]

/-- Any single call of the pull engine spawns `git pull` at most once. -/
theorem pull_changes_count_le_one (cfg : Config) (st : PBState) (now1 now2 : ℚ)
    (rc : InitCodes) (rpull : Int) :
    ((pull_changes cfg st now1 now2 rc rpull).cmds).count "git pull" ≤ 1 := by
  unfold pull_changes
  split
  · simp
  · refine pull_after_guard_count cfg _ now2 rpull ?_
    split
    · simp
    · exact git_pull_not_in_init cfg st rc

/-- Running `os.makedirs` leaves the parent directory existing. -/
theorem makedirs_parent_exists (st : PBState) :
    (makedirs_parent st).parent_exists = true := by
  unfold makedirs_parent
  split <;> simp_all

/-- Running `os.makedirs` does not move the working directory. -/
theorem makedirs_parent_cwd (st : PBState) :
    (makedirs_parent st).cwd = st.cwd := by
  unfold makedirs_parent
  split <;> rfl

/-- C2 counterexample: a call to `pull_changes` that passes the deadline
guard and finds the local directory absent (everything succeeding) issues
a separate `git pull` command within that same call, right after the
bootstrap sequence. -/
theorem bootstrap_also_pulls_cex :
    "git pull" ∈ (pull_changes ⟨"srv", "/d/box"⟩ ⟨"/home", 0, true, false, true⟩
      0 0 ⟨0, 0, 0, 0, 0⟩ 0).cmds := by decide

/-- C2 amended: a call to `pull_changes` that passes the deadline guard and
finds the local directory absent, with every command succeeding, performs
the bootstrap sequence — parent directories created, clone, placeholder
touch/add/commit/push — and then additionally issues a `git pull` within
the same call: the pull step is unconditional, not an otherwise branch. -/
theorem pull_changes_bootstrap_then_pull (cfg : Config) (st : PBState) (now1 now2 : ℚ)
    (h1 : ¬ st.next_pull_at > now1) (h2 : st.path_exists = false) :
    (pull_changes cfg st now1 now2 ⟨0, 0, 0, 0, 0⟩ 0).cmds
      = [git_clone_cmd cfg, "touch README.md", "git add README.md",
         "git commit -a -m \"initial\"", "git push origin master", "git pull"] ∧
    (pull_changes cfg st now1 now2 ⟨0, 0, 0, 0, 0⟩ 0).st.parent_exists = true ∧
    (pull_changes cfg st now1 now2 ⟨0, 0, 0, 0, 0⟩ 0).st.path_exists = true ∧
    (pull_changes cfg st now1 now2 ⟨0, 0, 0, 0, 0⟩ 0).outcome = .ok := by
  refine ⟨?_, ?_, ?_, ?_⟩ <;>
    simp [pull_changes, pull_changes_after_guard, init_local_repo, initTailCmds, runCmds,
      invoke_process, IgnoreCode.toList, InvokeResult.toOutcome, h1, h2, chdir,
      makedirs_parent_exists]

/-- Witness for the amended C2 at a concrete state with the local
directory absent. -/
theorem pull_changes_bootstrap_then_pull_witness :
    (¬ (⟨"/home", 0, true, false, true⟩ : PBState).next_pull_at > (0 : ℚ)) ∧
    (⟨"/home", 0, true, false, true⟩ : PBState).path_exists = false ∧
    ((pull_changes ⟨"srv", "/d/box"⟩ ⟨"/home", 0, true, false, true⟩ 0 0
        ⟨0, 0, 0, 0, 0⟩ 0).cmds
      = [git_clone_cmd ⟨"srv", "/d/box"⟩, "touch README.md", "git add README.md",
         "git commit -a -m \"initial\"", "git push origin master", "git pull"] ∧
      (pull_changes ⟨"srv", "/d/box"⟩ ⟨"/home", 0, true, false, true⟩ 0 0
        ⟨0, 0, 0, 0, 0⟩ 0).st.parent_exists = true ∧
      (pull_changes ⟨"srv", "/d/box"⟩ ⟨"/home", 0, true, false, true⟩ 0 0
        ⟨0, 0, 0, 0, 0⟩ 0).st.path_exists = true ∧
      (pull_changes ⟨"srv", "/d/box"⟩ ⟨"/home", 0, true, false, true⟩ 0 0
        ⟨0, 0, 0, 0, 0⟩ 0).outcome = .ok) :=
  ⟨by decide, rfl, pull_changes_bootstrap_then_pull _ _ _ _ (by decide) rfl⟩

/-- A pull step that raises no error sets the deadline to the second time
reading plus the poll interval. -/
theorem pull_after_guard_deadline (cfg : Config) (r1 : RunResult) (now2 : ℚ) (rpull : Int)
    (h : (pull_changes_after_guard cfg r1 now2 rpull).outcome = .ok) :
    (pull_changes_after_guard cfg r1 now2 rpull).st.next_pull_at = now2 + POLL_INTERVAL := by
  cases ho : r1.outcome <;>
    cases hm : (invoke_process "git pull" (.one 0) rpull).toOutcome <;>
      simp_all [pull_changes_after_guard, chdir]

/-- C4: a `pull_changes` call made strictly before the deadline returns at
once with the state unchanged, no command spawned and no error; a call
that passes the guard and raises no error sets the deadline to the second
time reading plus the 60-second poll interval; and two calls within one
second of each other, the first of which raises no error, spawn at most
one `git pull` between them. -/
theorem pull_changes_gating :
    (∀ (cfg : Config) (st : PBState) (now1 now2 : ℚ) (rc : InitCodes) (rpull : Int),
      now1 < st.next_pull_at →
      pull_changes cfg st now1 now2 rc rpull = ⟨st, [], .ok⟩) ∧
    (∀ (cfg : Config) (st : PBState) (now1 now2 : ℚ) (rc : InitCodes) (rpull : Int),
      ¬ st.next_pull_at > now1 →
      (pull_changes cfg st now1 now2 rc rpull).outcome = .ok →
      (pull_changes cfg st now1 now2 rc rpull).st.next_pull_at = now2 + POLL_INTERVAL) ∧
    (∀ (cfg : Config) (st : PBState) (t1 t2 u1 u2 : ℚ) (rc rc2 : InitCodes) (rp rp2 : Int),
      t1 ≤ t2 → u1 ≤ t1 + 1 →
      (pull_changes cfg st t1 t2 rc rp).outcome = .ok →
      ((pull_changes cfg st t1 t2 rc rp).cmds ++
        (pull_changes cfg (pull_changes cfg st t1 t2 rc rp).st u1 u2 rc2 rp2).cmds).count
          "git pull" ≤ 1) := by
  have ha : ∀ (cfg : Config) (st : PBState) (now1 now2 : ℚ) (rc : InitCodes) (rpull : Int),
      now1 < st.next_pull_at →
      pull_changes cfg st now1 now2 rc rpull = ⟨st, [], .ok⟩ := by
    intro cfg st now1 now2 rc rpull h
    unfold pull_changes
    rw [if_pos h]
  have hb : ∀ (cfg : Config) (st : PBState) (now1 now2 : ℚ) (rc : InitCodes) (rpull : Int),
      ¬ st.next_pull_at > now1 →
      (pull_changes cfg st now1 now2 rc rpull).outcome = .ok →
      (pull_changes cfg st now1 now2 rc rpull).st.next_pull_at = now2 + POLL_INTERVAL := by
    intro cfg st now1 now2 rc rpull hg hok
    unfold pull_changes at hok ⊢
    rw [if_neg hg] at hok ⊢
    exact pull_after_guard_deadline _ _ _ _ hok
  refine ⟨ha, hb, ?_⟩
  intro cfg st t1 t2 u1 u2 rc rc2 rp rp2 h12 hu hok
  by_cases hg : st.next_pull_at > t1
  · rw [ha cfg st t1 t2 rc rp hg]
    simpa using pull_changes_count_le_one cfg st u1 u2 rc2 rp2
  · have hd := hb cfg st t1 t2 rc rp hg hok
    have h60 : POLL_INTERVAL = 60 := rfl
    have hlt : u1 < (pull_changes cfg st t1 t2 rc rp).st.next_pull_at := by
      rw [hd, h60]
      linarith
    rw [ha cfg _ u1 u2 rc2 rp2 hlt]
    simpa using pull_changes_count_le_one cfg st t1 t2 rc rp

/-- Witness for C4: a guard-blocked call is a no-op; a successful pull at
time 0 sets the deadline to the poll interval; and a successful call
followed one second later by a second call spawn at most one pull. -/
theorem pull_changes_gating_witness :
    ((0 : ℚ) < 10) ∧
    pull_changes ⟨"srv", "/d/box"⟩ ⟨"/home", 10, true, true, true⟩ 0 0 ⟨0, 0, 0, 0, 0⟩ 0
      = ⟨⟨"/home", 10, true, true, true⟩, [], .ok⟩ ∧
    (¬ (⟨"/home", 0, true, true, true⟩ : PBState).next_pull_at > (0 : ℚ)) ∧
    (pull_changes ⟨"srv", "/d/box"⟩ ⟨"/home", 0, true, true, true⟩ 0 0
      ⟨0, 0, 0, 0, 0⟩ 0).outcome = .ok ∧
    (pull_changes ⟨"srv", "/d/box"⟩ ⟨"/home", 0, true, true, true⟩ 0 0
      ⟨0, 0, 0, 0, 0⟩ 0).st.next_pull_at = 0 + POLL_INTERVAL ∧
    ((pull_changes ⟨"srv", "/d/box"⟩ ⟨"/home", 0, true, true, true⟩ 0 0
        ⟨0, 0, 0, 0, 0⟩ 0).cmds ++
      (pull_changes ⟨"srv", "/d/box"⟩
        (pull_changes ⟨"srv", "/d/box"⟩ ⟨"/home", 0, true, true, true⟩ 0 0
          ⟨0, 0, 0, 0, 0⟩ 0).st 1 1 ⟨0, 0, 0, 0, 0⟩ 0).cmds).count "git pull" ≤ 1 :=
  ⟨by norm_num,
   pull_changes_gating.1 _ _ _ _ _ _ (by norm_num),
   by decide,
   by decide,
   pull_changes_gating.2.1 _ _ _ _ _ _ (by decide) (by decide),
   pull_changes_gating.2.2 _ _ _ _ _ _ _ _ _ _ (by norm_num) (by norm_num) (by decide)⟩

/-- The bootstrap restores the working directory on every exit path. -/
theorem init_local_repo_cwd (cfg : Config) (st : PBState) (rc : InitCodes) :
    (init_local_repo cfg st rc).st.cwd = st.cwd := by
  unfold init_local_repo
  split <;> simp [chdir, makedirs_parent_cwd]

/-- The pull step restores the working directory on every exit path. -/
theorem pull_after_guard_cwd (cfg : Config) (r1 : RunResult) (now2 : ℚ) (rpull : Int) :
    (pull_changes_after_guard cfg r1 now2 rpull).st.cwd = r1.st.cwd := by
  unfold pull_changes_after_guard
  split
  · split <;> simp [chdir]
  · rfl

/-- C9: every execution of `pull_changes` and of `push_changes` leaves the
process working directory exactly as it found it, on every exit path,
including those on which an invoked command raises. -/
theorem engines_restore_cwd (cfg : Config) (st : PBState) (now1 now2 : ℚ)
    (rc : InitCodes) (rpull : Int) (dt : String) (pc : PushCodes) :
    (pull_changes cfg st now1 now2 rc rpull).st.cwd = st.cwd ∧
    (push_changes cfg st dt pc).st.cwd = st.cwd := by
  refine ⟨?_, ?_⟩
  · unfold pull_changes
    split
    · rfl
    · rw [pull_after_guard_cwd]
      split
      · rfl
      · exact init_local_repo_cwd cfg st rc
  · unfold push_changes
    repeat' split
    all_goals simp [chdir]

/-- C7: under the loop supervisor `keeprunning`, an interruption raised by
an iteration propagates immediately with nothing logged, no sleep and no
retry; any other error is caught and logged, followed by the
`error_wait` sleep, and the loop goes on with the remaining iterations;
a normal return is followed by the `wait` sleep and the loop goes on; and
a run none of whose iterations raises an interruption never terminates
the loop. -/
theorem keeprunning_supervisor :
    (∀ (rest : List FnOutcome) (w ew : ℚ),
      keeprunning (.intr :: rest) w ew = ⟨[], true⟩) ∧
    (∀ (rest : List FnOutcome) (w ew : ℚ),
      keeprunning (.err :: rest) w ew
        = ⟨.logged :: .slept ew :: (keeprunning rest w ew).events,
           (keeprunning rest w ew).propagated⟩) ∧
    (∀ (rest : List FnOutcome) (w ew : ℚ),
      keeprunning (.ok :: rest) w ew
        = ⟨.slept w :: (keeprunning rest w ew).events,
           (keeprunning rest w ew).propagated⟩) ∧
    (∀ (outs : List FnOutcome) (w ew : ℚ),
      FnOutcome.intr ∉ outs → (keeprunning outs w ew).propagated = false) := by
  refine ⟨fun rest w ew => rfl, fun rest w ew => rfl, fun rest w ew => rfl, ?_⟩
  intro outs w ew h
  induction outs with
  | nil => rfl
  | cons o rest ih =>
    cases o with
    | ok =>
      simp only [keeprunning]
      exact ih (fun hm => h (List.mem_cons_of_mem _ hm))
    | intr => exact absurd (List.mem_cons_self _ _) h
    | err =>
      simp only [keeprunning]
      exact ih (fun hm => h (List.mem_cons_of_mem _ hm))

/-- Witness for C7: one interrupting iteration terminates at once, and the
two-iteration run fail-then-succeed is still running. -/
theorem keeprunning_supervisor_witness :
    keeprunning [FnOutcome.intr] (1/10) 1 = ⟨[], true⟩ ∧
    FnOutcome.intr ∉ ([FnOutcome.err, FnOutcome.ok] : List FnOutcome) ∧
    (keeprunning [FnOutcome.err, FnOutcome.ok] (1/10) 1).propagated = false :=
  ⟨keeprunning_supervisor.1 [] (1/10) 1,
   by decide,
   keeprunning_supervisor.2.2.2 [FnOutcome.err, FnOutcome.ok] (1/10) 1 (by decide)⟩

end Pullbox
